import Mathlib

/-!
Verification of the mock-table-data-generator repository.

This file gives a shallow embedding of the two core components:

* `MetadataManager` (src/metadata_manager.py): persistent sequential-ID
  allocation.  The in-memory metadata `dict[str, dict[str, Any]]` is
  modelled as an association list from table name to a `TableData`
  record whose fields are `Option`-valued, mirroring presence/absence
  of the JSON keys `"last_id"` and `"existing_ids"`.  Python `KeyError`
  and `ValueError` are modelled by an explicit error type, and every
  operation that can raise returns `Except PyErr _`.  `random.randint`
  is modelled by an explicit seed parameter.

* `S3Uploader._split_dataframe_by_size` (src/s3_uploader.py): the chunk
  planner.  A dataframe is modelled as a `List` of rows; the measured
  parquet byte size of the sample is a parameter (the file system is
  abstracted away); float arithmetic of the size estimate is modelled
  over `ℚ` with Python `int()` truncation (the quantities involved are
  non-negative, so truncation is `Int.floor`).
-/

/-- Python exceptions raised by the metadata manager and the splitter:
`KeyError` from a missing dict key and `ValueError` from
`random.randint` / the explicit raise / `range()` with zero step. -/
inductive PyErr where
  | keyError (key : String)
  | valueError (msg : String)
deriving Repr, DecidableEq

/-- One table's entry of the metadata dict: the optional `"last_id"` key
and the optional legacy `"existing_ids"` key. -/
structure TableData where
  last_id : Option Int
  existing_ids : Option (List Int)
deriving Repr, DecidableEq

/-- The metadata dict `dict[str, dict[str, Any]]`, as an association
list keyed by table name. -/
abbrev Metadata := List (String × TableData)

/-- Dict lookup `metadata[table_name]`, as an `Option`. -/
def lookupTable (m : Metadata) (t : String) : Option TableData :=
  (m.find? (fun p => p.fst == t)).map (fun p => p.snd)

/-- Dict update of the entry at key `t` by `f` (Python mutates the inner
dict in place; keys of a Python dict are unique). -/
def setTable (m : Metadata) (t : String) (f : TableData → TableData) : Metadata :=
  m.map (fun p => if p.fst == t then (p.fst, f p.snd) else p)

/-- Python `self.metadata[table_name]["last_id"]`: `KeyError` when the
table is missing, `KeyError` when the inner `"last_id"` key is missing. -/
def getLastId (m : Metadata) (t : String) : Except PyErr Int :=
  match lookupTable m t with
  | none => .error (.keyError t)
  | some td =>
    match td.last_id with
    | none => .error (.keyError "last_id")
    | some v => .ok v

/-- Python `list(range(a, b))` over integers. -/
def rangeList (a b : Int) : List Int :=
  (List.range (b - a).toNat).map (fun (i : Nat) => a + (i : Int))

/-- Python `max(l)` for a non-empty list (callers guard emptiness). -/
def listMax : List Int → Int
  | [] => 0
  | x :: xs => xs.foldl max x

/-- Python `random.randint(a, b)`: `ValueError` when `b < a`, otherwise
a value in `[a, b]` chosen by the (abstracted) seed. -/
def randint (a b : Int) (seed : Nat) : Except PyErr Int :=
  if b < a then .error (.valueError "empty range for randrange()")
  else .ok (a + (seed % (b - a + 1).toNat : Nat))

/-- MetadataManager.get_next_id_range: reads `last_id`, returns
`range(last_id + 1, last_id + 1 + count)`.  The metadata is returned
unchanged (the method performs no write). -/
def get_next_id_range (m : Metadata) (t : String) (count : Int) :
    Except PyErr (List Int × Metadata) := do
  let v ← getLastId m t
  let start_id := v + 1
  let end_id := start_id + count
  pure (rangeList start_id end_id, m)

/-- MetadataManager.update_last_id: `self.metadata[table_name]["last_id"]
= last_id`.  `KeyError` when the table is missing; the inner assignment
itself never fails (it creates the key when absent). -/
def update_last_id (m : Metadata) (t : String) (v : Int) :
    Except PyErr Metadata :=
  match lookupTable m t with
  | none => .error (.keyError t)
  | some _ => .ok (setTable m t (fun td => { td with last_id := some v }))

/-- MetadataManager.get_existing_ids: `[]` when `last_id == 0`, else
`list(range(1, last_id + 1))`. -/
def get_existing_ids (m : Metadata) (t : String) :
    Except PyErr (List Int × Metadata) := do
  let v ← getLastId m t
  if v = 0 then pure ([], m) else pure (rangeList 1 (v + 1), m)

/-- MetadataManager.get_random_existing_id: raises `ValueError` when
`last_id == 0`, else `random.randint(1, last_id)`. -/
def get_random_existing_id (m : Metadata) (t : String) (seed : Nat) :
    Except PyErr (Int × Metadata) := do
  let v ← getLastId m t
  if v = 0 then
    Except.error (.valueError ("No existing IDs for table " ++ t))
  else do
    let x ← randint 1 v seed
    pure (x, m)

/-- MetadataManager.get_existing_id_count: returns `last_id`. -/
def get_existing_id_count (m : Metadata) (t : String) :
    Except PyErr (Int × Metadata) := do
  let v ← getLastId m t
  pure (v, m)

/-- MetadataManager.add_generated_ids: no-op when `new_ids` is empty
(the `if new_ids:` guard precedes any dict access); otherwise sets
`last_id = max(current_last_id, max(new_ids))`. -/
def add_generated_ids (m : Metadata) (t : String) (new_ids : List Int) :
    Except PyErr Metadata :=
  if new_ids.isEmpty then .ok m
  else do
    let new_last_id := listMax new_ids
    let current ← getLastId m t
    pure (setTable m t (fun td => { td with last_id := some (max current new_last_id) }))

/-- Legacy migration of one table entry inside `_load_metadata`: when the
`"existing_ids"` key is present, set `last_id = max(existing_ids)` only
when the list is non-empty, then delete the key. -/
def migrateTable (td : TableData) : TableData :=
  match td.existing_ids with
  | none => td
  | some ids =>
    let td1 := if ids.isEmpty then td else { td with last_id := some (listMax ids) }
    { td1 with existing_ids := none }

/-- MetadataManager._load_metadata on an existing metadata file, whose
parsed JSON document is modelled by a `Metadata` value: migrate every
table entry in place. -/
def load_metadata (doc : Metadata) : Metadata :=
  doc.map (fun p => (p.fst, migrateTable p.snd))

/-- MetadataManager._load_metadata default when the file is absent. -/
def defaultMetadata : Metadata :=
  [("users", ⟨some 0, none⟩), ("orders", ⟨some 0, none⟩), ("products", ⟨some 0, none⟩)]

/-- MetadataManager.save_metadata: `json.dump` of the in-memory dict.
The persisted document is modelled by the `Metadata` value itself
(`json.dump`/`json.load` is faithful on this shape). -/
def save_metadata (m : Metadata) : Metadata := m

/-! The chunk planner, `S3Uploader._split_dataframe_by_size`. -/

/-- Sample row count: `min(1000, len(df))`. -/
def sample_size (dfLen : Nat) : Nat := min 1000 dfLen

/-- Row-density estimate: `sample_size / file_size_mb if file_size_mb > 0
else 1000`, with the measured sample parquet size in megabytes taken as
a rational parameter. -/
def rows_per_mb (sampleSize : Nat) (file_size_mb : ℚ) : ℚ :=
  if 0 < file_size_mb then (sampleSize : ℚ) / file_size_mb else 1000

/-- Estimated chunk row count: `int(rows_per_mb * size_limit_mb)`.  The
product is non-negative, so Python `int()` truncation is `Int.floor`.
There is no clamp in the source. -/
def chunk_size (sampleSize : Nat) (file_size_mb : ℚ) (size_limit_mb : Nat) : Int :=
  Int.floor (rows_per_mb sampleSize file_size_mb * (size_limit_mb : ℚ))

/-- Partition a dataframe into contiguous chunks of `c` rows (the last
chunk may be smaller), mirroring `df.iloc[i:i + chunk_size]` for
`i in range(0, len(df), chunk_size)` with a positive step `c`. -/
def chunksOf : Nat → List α → List (List α)
  | _, [] => []
  | 0, _ :: _ => []
  | c + 1, x :: xs => (x :: xs).take (c + 1) :: chunksOf (c + 1) ((x :: xs).drop (c + 1))
termination_by _ df => df.length
decreasing_by
  simp only [List.drop_succ_cons, List.length_drop, List.length_cons]
  omega

/-- The chunking loop `for i in range(0, len(df), chunk_size)`: Python
`range` raises `ValueError` on a zero step; a negative step yields an
empty iteration since `len(df) >= 0`. -/
def split_dataframe (df : List α) (c : Int) : Except PyErr (List (List α)) :=
  if c = 0 then .error (.valueError "range() arg 3 must not be zero")
  else if c < 0 then .ok []
  else .ok (chunksOf c.toNat df)

/-- S3Uploader._split_dataframe_by_size end to end: estimate the density
from the sample's measured parquet size (`sampleBytes`, abstracting the
file system), derive the chunk row count, and split. -/
def split_dataframe_by_size (df : List α) (sampleBytes : Nat) (size_limit_mb : Nat) :
    Except PyErr (List (List α)) :=
  let file_size_mb : ℚ := (sampleBytes : ℚ) / (1024 * 1024)
  split_dataframe df (chunk_size (sample_size df.length) file_size_mb size_limit_mb)

/-! Helper lemmas about the chunking recursion. -/

theorem chunksOf_nil (k : Nat) : chunksOf k ([] : List α) = [] := by
  cases k <;> simp [chunksOf]

theorem chunksOf_cons (k : Nat) (x : α) (xs : List α) :
    chunksOf (k + 1) (x :: xs) =
      (x :: xs).take (k + 1) :: chunksOf (k + 1) ((x :: xs).drop (k + 1)) := by
  rw [chunksOf]

theorem chunksOf_flatten (k : Nat) (df : List α) :
    (chunksOf (k + 1) df).flatten = df := by
  generalize hn : df.length = n
  induction n using Nat.strong_induction_on generalizing df with
  | _ n ih =>
    cases df with
    | nil => simp [chunksOf_nil]
    | cons x xs =>
      rw [chunksOf_cons]
      rw [List.flatten_cons]
      rw [ih ((x :: xs).drop (k + 1)).length (by simp [← hn]; omega) _ rfl]
      exact List.take_append_drop (k + 1) (x :: xs)

theorem chunksOf_ne_nil (k : Nat) (df : List α) :
    ∀ ch ∈ chunksOf (k + 1) df, ch ≠ [] := by
  generalize hn : df.length = n
  induction n using Nat.strong_induction_on generalizing df with
  | _ n ih =>
    cases df with
    | nil => simp [chunksOf_nil]
    | cons x xs =>
      rw [chunksOf_cons]
      intro ch hch
      rcases List.mem_cons.mp hch with h | h
      · subst h; simp
      · exact ih ((x :: xs).drop (k + 1)).length (by simp [← hn]; omega) _ rfl ch h

theorem chunksOf_length (k : Nat) (df : List α) :
    (chunksOf (k + 1) df).length = (df.length + k) / (k + 1) := by
  generalize hn : df.length = n
  induction n using Nat.strong_induction_on generalizing df with
  | _ n ih =>
    cases df with
    | nil =>
      simp only [List.length_nil] at hn
      subst hn
      rw [chunksOf_nil]
      simp only [List.length_nil, Nat.zero_add]
      exact (Nat.div_eq_of_lt (by omega)).symm
    | cons x xs =>
      rw [chunksOf_cons]
      rw [List.length_cons,
        ih ((x :: xs).drop (k + 1)).length (by simp [← hn]; omega) _ rfl]
      simp only [List.length_drop, List.length_cons]
      simp only [List.length_cons] at hn
      subst hn
      rcases Nat.lt_or_ge (xs.length + 1) (k + 1) with h | h
      · have h0 : xs.length + 1 - (k + 1) = 0 := by omega
        rw [h0]
        have h1 : (0 + k) / (k + 1) = 0 := Nat.div_eq_of_lt (by omega)
        have h2 : (xs.length + 1 + k) / (k + 1) = 1 := by
          apply Nat.div_eq_of_lt_le <;> omega
        rw [h1, h2]
      · have h3 : xs.length + 1 - (k + 1) + k + (k + 1) = xs.length + 1 + k := by
          omega
        rw [← h3, Nat.add_div_right _ (by omega : 0 < k + 1)]

/-! Helper lemmas about the metadata association list. -/

theorem lookupTable_setTable_self (m : Metadata) (t : String) (f : TableData → TableData) :
    lookupTable (setTable m t f) t = (lookupTable m t).map f := by
  induction m with
  | nil => rfl
  | cons p m ih =>
    by_cases h : p.fst == t
    · simp [lookupTable, setTable, List.find?, h]
    · simp only [setTable, List.map_cons, if_neg (by simpa using h)]
      simp only [lookupTable, List.find?] at ih ⊢
      rw [if_neg (by simpa using h)] at *
      simp only [h, Bool.false_eq_true, if_false] at *
      exact ih

theorem getLastId_eq_ok (m : Metadata) (t : String) (v : Int) :
    getLastId m t = .ok v ↔
      ∃ td, lookupTable m t = some td ∧ td.last_id = some v := by
  unfold getLastId
  cases hl : lookupTable m t with
  | none => simp
  | some td =>
    cases hid : td.last_id with
    | none => simp [hid]
    | some w => simp [hid]

theorem getLastId_setTable_lastId (m : Metadata) (t : String) (w : Int)
    (td : TableData) (h : lookupTable m t = some td) :
    getLastId (setTable m t (fun td0 => { td0 with last_id := some w })) t = .ok w := by
  rw [getLastId_eq_ok]
  refine ⟨{ td with last_id := some w }, ?_, rfl⟩
  rw [lookupTable_setTable_self, h]
  rfl

theorem mem_rangeList (a b x : Int) : x ∈ rangeList a b ↔ a ≤ x ∧ x < b := by
  unfold rangeList
  simp only [List.mem_map, List.mem_range]
  constructor
  · rintro ⟨i, hi, rfl⟩
    omega
  · rintro ⟨h1, h2⟩
    exact ⟨(x - a).toNat, by omega, by omega⟩

theorem rangeList_length (a b : Int) : (rangeList a b).length = (b - a).toNat := by
  simp only [rangeList, List.length_map, List.length_range]

/-! Helper lemmas about `listMax` (Python `max` on a non-empty list). -/

theorem foldl_max_le (b : Int) :
    ∀ (xs : List Int) (x : Int), x ≤ b → (∀ y ∈ xs, y ≤ b) → xs.foldl max x ≤ b := by
  intro xs
  induction xs with
  | nil => intro x hx _; exact hx
  | cons z zs ih =>
    intro x hx hall
    simp only [List.foldl_cons]
    exact ih (max x z) (by
      have := hall z (by simp)
      omega) (fun y hy => hall y (by simp [hy]))

theorem le_foldl_max :
    ∀ (xs : List Int) (x y : Int), (y = x ∨ y ∈ xs) → y ≤ xs.foldl max x := by
  intro xs
  induction xs with
  | nil =>
    intro x y h
    rcases h with h | h
    · simp [h]
    · simp at h
  | cons z zs ih =>
    intro x y h
    simp only [List.foldl_cons]
    rcases h with h | h
    · exact le_trans (by omega : y ≤ max x z) (ih (max x z) (max x z) (Or.inl rfl))
    · rcases List.mem_cons.mp h with h | h
      · exact le_trans (by omega : y ≤ max x z) (ih (max x z) (max x z) (Or.inl rfl))
      · exact ih (max x z) y (Or.inr h)

theorem le_listMax (l : List Int) (y : Int) (hy : y ∈ l) : y ≤ listMax l := by
  cases l with
  | nil => simp at hy
  | cons x xs =>
    rcases List.mem_cons.mp hy with h | h
    · exact le_foldl_max xs x y (Or.inl h)
    · exact le_foldl_max xs x y (Or.inr h)

theorem listMax_le (x : Int) (xs : List Int) (b : Int)
    (h : ∀ y ∈ x :: xs, y ≤ b) : listMax (x :: xs) ≤ b :=
  foldl_max_le b xs x (h x (by simp)) (fun y hy => h y (by simp [hy]))

theorem listMax_subset_le (l1 l2 : List Int) (h1 : l1 ≠ [])
    (hsub : ∀ x ∈ l1, x ∈ l2) : listMax l1 ≤ listMax l2 := by
  cases l1 with
  | nil => exact absurd rfl h1
  | cons x xs =>
    exact listMax_le x xs (listMax l2) (fun y hy => le_listMax l2 y (hsub y hy))

/-! Reduction lemmas for the allocator operations. -/

theorem getLastId_of_lookup_none (m : Metadata) (t : String)
    (h : lookupTable m t = none) : getLastId m t = .error (.keyError t) := by
  unfold getLastId
  rw [h]

theorem getLastId_of_lastId_none (m : Metadata) (t : String) (td : TableData)
    (h : lookupTable m t = some td) (h2 : td.last_id = none) :
    getLastId m t = .error (.keyError "last_id") := by
  unfold getLastId
  simp only [h, h2]

theorem get_next_id_range_ok (m : Metadata) (t : String) (cur count : Int)
    (h : getLastId m t = .ok cur) :
    get_next_id_range m t count = .ok (rangeList (cur + 1) (cur + 1 + count), m) := by
  unfold get_next_id_range
  rw [h]
  rfl

theorem get_next_id_range_err (m : Metadata) (t : String) (count : Int) (e : PyErr)
    (h : getLastId m t = .error e) :
    get_next_id_range m t count = .error e := by
  unfold get_next_id_range
  rw [h]
  rfl

theorem get_existing_ids_err (m : Metadata) (t : String) (e : PyErr)
    (h : getLastId m t = .error e) :
    get_existing_ids m t = .error e := by
  unfold get_existing_ids
  rw [h]
  rfl

theorem get_random_existing_id_err (m : Metadata) (t : String) (seed : Nat) (e : PyErr)
    (h : getLastId m t = .error e) :
    get_random_existing_id m t seed = .error e := by
  unfold get_random_existing_id
  rw [h]
  rfl

theorem get_existing_id_count_ok (m : Metadata) (t : String) (cur : Int)
    (h : getLastId m t = .ok cur) :
    get_existing_id_count m t = .ok (cur, m) := by
  unfold get_existing_id_count
  rw [h]
  rfl

theorem get_existing_id_count_err (m : Metadata) (t : String) (e : PyErr)
    (h : getLastId m t = .error e) :
    get_existing_id_count m t = .error e := by
  unfold get_existing_id_count
  rw [h]
  rfl

theorem isEmpty_false_of_ne_nil {l : List Int} (h : l ≠ []) : l.isEmpty = false := by
  cases l with
  | nil => exact absurd rfl h
  | cons x xs => rfl

theorem add_generated_ids_nil (m : Metadata) (t : String) :
    add_generated_ids m t [] = .ok m := rfl

theorem add_generated_ids_ok (m : Metadata) (t : String) (ids : List Int) (cur : Int)
    (h : getLastId m t = .ok cur) (hne : ids ≠ []) :
    add_generated_ids m t ids =
      .ok (setTable m t
        (fun td => { td with last_id := some (max cur (listMax ids)) })) := by
  unfold add_generated_ids
  rw [isEmpty_false_of_ne_nil hne]
  simp only [Bool.false_eq_true, if_false]
  rw [h]
  rfl

theorem add_generated_ids_err (m : Metadata) (t : String) (ids : List Int) (e : PyErr)
    (h : getLastId m t = .error e) (hne : ids ≠ []) :
    add_generated_ids m t ids = .error e := by
  unfold add_generated_ids
  rw [isEmpty_false_of_ne_nil hne]
  simp only [Bool.false_eq_true, if_false]
  rw [h]
  rfl

theorem update_last_id_ok (m : Metadata) (t : String) (v : Int) (td : TableData)
    (h : lookupTable m t = some td) :
    update_last_id m t v =
      .ok (setTable m t (fun td0 => { td0 with last_id := some v })) := by
  unfold update_last_id
  rw [h]

/-! Further reduction lemmas for the random-sampling operation. -/

theorem except_ok_bind {α β : Type} (a : α) (f : α → Except PyErr β) :
    (Except.ok a >>= f) = f a := rfl

theorem get_random_existing_id_zero (m : Metadata) (t : String) (seed : Nat)
    (h : getLastId m t = .ok 0) :
    get_random_existing_id m t seed =
      .error (.valueError ("No existing IDs for table " ++ t)) := by
  unfold get_random_existing_id
  rw [h]
  simp only [except_ok_bind]
  rfl

theorem get_random_existing_id_pos (m : Metadata) (t : String) (cur : Int) (seed : Nat)
    (h : getLastId m t = .ok cur) (h1 : 1 ≤ cur) :
    get_random_existing_id m t seed =
      .ok (1 + ((seed % (cur - 1 + 1).toNat : Nat) : Int), m) := by
  unfold get_random_existing_id randint
  rw [h]
  simp only [except_ok_bind]
  rw [if_neg (by omega : ¬ cur = 0), if_neg (by omega : ¬ cur < 1)]
  simp only [except_ok_bind]
  rfl

/-! Lemmas about loading a clean (already migrated) metadata document. -/

theorem migrateTable_none (td : TableData) (h : td.existing_ids = none) :
    migrateTable td = td := by
  unfold migrateTable
  rw [h]

theorem load_metadata_clean (m : Metadata) :
    (∀ p ∈ m, (p.snd).existing_ids = none) → load_metadata m = m := by
  induction m with
  | nil => intro _; rfl
  | cons p m ih =>
    intro hclean
    unfold load_metadata at *
    simp only [List.map_cons]
    rw [migrateTable_none p.snd (hclean p (List.mem_cons_self p m))]
    rw [ih (fun q hq => hclean q (List.mem_cons_of_mem p hq))]

/-! The claims. -/

/-- C1: the claim states that the chunk row count
`floor(rows_per_mb * byte_budget_mb)` is clamped to at least 1, so a
budget smaller than one row's footprint still yields 1-row chunks.  The
source has no clamp: at a 1-row dataframe whose sample parquet measures
1.5 MiB under a 1 MB budget, `chunk_size` evaluates to `0`, and the
splitting loop `range(0, len(df), 0)` raises `ValueError` instead of
returning chunks of at least one row. -/
theorem C1_chunk_count_not_clamped :
    chunk_size (sample_size 1) (((1572864 : Nat) : ℚ) / (1024 * 1024)) 1 = 0 ∧
    split_dataframe_by_size [(7 : Int)] 1572864 1 =
      .error (.valueError "range() arg 3 must not be zero") := by
  have hpos : (0 : ℚ) < ((1572864 : Nat) : ℚ) / (1024 * 1024) := by norm_num
  have hs : sample_size 1 = 1 := rfl
  have h : chunk_size (sample_size 1) (((1572864 : Nat) : ℚ) / (1024 * 1024)) 1 = 0 := by
    unfold chunk_size rows_per_mb
    rw [hs, if_pos hpos]
    norm_num
  refine ⟨h, ?_⟩
  show split_dataframe [(7 : Int)]
    (chunk_size (sample_size (List.length [(7 : Int)]))
      (((1572864 : Nat) : ℚ) / (1024 * 1024)) 1) = _
  rw [show List.length [(7 : Int)] = 1 from rfl, h]
  rfl

/-- C2 counterexample: `update_last_id` writes its argument
unconditionally, so calling it with 3 on a table whose `last_id` is 5
moves `last_id` backward, refuting the claim that no operation ever sets
`last_id` below its current value. -/
theorem C2_counterexample_update_decreases :
    getLastId [("users", TableData.mk (some 5) none)] "users" = .ok 5 ∧
    update_last_id [("users", TableData.mk (some 5) none)] "users" 3 =
      .ok [("users", TableData.mk (some 3) none)] ∧
    getLastId [("users", TableData.mk (some 3) none)] "users" = .ok 3 ∧
    (3 : Int) < 5 :=
  ⟨rfl, rfl, rfl, by omega⟩

/-- C2 (amended): `add_generated_ids` never decreases a table's
`last_id`; `update_last_id` preserves monotonicity only when its
argument is at least the current value (its documented usage, where it
is called with the maximum of the generated range). -/
theorem C2_amended_monotone (m : Metadata) (t : String) (cur : Int)
    (h : getLastId m t = .ok cur) :
    (∀ (ids : List Int) (m2 : Metadata) (v2 : Int),
      add_generated_ids m t ids = .ok m2 → getLastId m2 t = .ok v2 → cur ≤ v2) ∧
    (∀ v : Int, cur ≤ v → ∀ m2 : Metadata, update_last_id m t v = .ok m2 →
      getLastId m2 t = .ok v) := by
  obtain ⟨td, hl, hid⟩ := (getLastId_eq_ok m t cur).mp h
  constructor
  · intro ids m2 v2 hadd hv2
    by_cases hne : ids = []
    · subst hne
      rw [add_generated_ids_nil] at hadd
      injection hadd with hm
      subst hm
      rw [h] at hv2
      injection hv2 with hv
      omega
    · rw [add_generated_ids_ok m t ids cur h hne] at hadd
      injection hadd with hm
      subst hm
      rw [getLastId_setTable_lastId m t (max cur (listMax ids)) td hl] at hv2
      injection hv2 with hv
      omega
  · intro v hv m2 hup
    rw [update_last_id_ok m t v td hl] at hup
    injection hup with hm
    subst hm
    exact getLastId_setTable_lastId m t v td hl

/-- Witness for C2 (amended) at a concrete state with `last_id = 5`. -/
theorem C2_amended_monotone_witness :
    (∀ (ids : List Int) (m2 : Metadata) (v2 : Int),
      add_generated_ids [("users", TableData.mk (some 5) none)] "users" ids = .ok m2 →
      getLastId m2 "users" = .ok v2 → (5 : Int) ≤ v2) ∧
    (∀ v : Int, (5 : Int) ≤ v →
      ∀ m2 : Metadata,
        update_last_id [("users", TableData.mk (some 5) none)] "users" v = .ok m2 →
      getLastId m2 "users" = .ok v) :=
  C2_amended_monotone [("users", TableData.mk (some 5) none)] "users" 5 rfl

/-- C3 counterexample: starting from `last_id = 5`, committing the
non-empty collection `[1]` leaves `last_id = 5` (max guard), so the next
allocation starts at 6, not at `max([1]) + 1 = 2`; this refutes the
claim for arbitrary non-empty id collections. -/
theorem C3_counterexample_stale_commit :
    get_next_id_range [("users", TableData.mk (some 5) none)] "users" 1 =
      .ok ([6], [("users", TableData.mk (some 5) none)]) ∧
    add_generated_ids [("users", TableData.mk (some 5) none)] "users" [1] =
      .ok [("users", TableData.mk (some 5) none)] ∧
    get_next_id_range [("users", TableData.mk (some 5) none)] "users" 2 =
      .ok ([6, 7], [("users", TableData.mk (some 5) none)]) ∧
    listMax [1] + 1 = 2 ∧ (6 : Int) ≠ 2 :=
  ⟨rfl, rfl, rfl, rfl, by omega⟩

/-- C3 (amended): after `allocate_range(T, n1)` (a pure read) and
`commit(T, ids1)` with `ids1` non-empty, the next `allocate_range(T, n2)`
returns the range starting at `max(last_id, max(ids1)) + 1`; this equals
`max(ids1) + 1` exactly when `max(ids1)` is at least the `last_id` held
at commit time (as when `ids1` is the freshly allocated range). -/
theorem C3_amended_next_range_start (m : Metadata) (t : String) (ids : List Int)
    (cur n1 n2 : Int) (r1 : List Int) (m2 : Metadata)
    (h : getLastId m t = .ok cur) (hne : ids ≠ [])
    (_halloc : get_next_id_range m t n1 = .ok (r1, m))
    (hcommit : add_generated_ids m t ids = .ok m2) :
    get_next_id_range m2 t n2 =
      .ok (rangeList (max cur (listMax ids) + 1) (max cur (listMax ids) + 1 + n2), m2) ∧
    (cur ≤ listMax ids →
      get_next_id_range m2 t n2 =
        .ok (rangeList (listMax ids + 1) (listMax ids + 1 + n2), m2)) := by
  obtain ⟨td, hl, hid⟩ := (getLastId_eq_ok m t cur).mp h
  rw [add_generated_ids_ok m t ids cur h hne] at hcommit
  injection hcommit with hm
  subst hm
  have hg := getLastId_setTable_lastId m t (max cur (listMax ids)) td hl
  refine ⟨get_next_id_range_ok _ t _ n2 hg, ?_⟩
  intro hle
  rw [get_next_id_range_ok _ t _ n2 hg, max_eq_right hle]

/-- Witness for C3 (amended) at the spec's scenario: fresh allocator,
allocate 5 for "users", commit `[1,2,3,4,5]`, then allocate 3 — the
second range is `range(6, 9)`. -/
theorem C3_amended_next_range_start_witness :
    get_next_id_range
      [("users", TableData.mk (some 5) none), ("orders", TableData.mk (some 0) none),
        ("products", TableData.mk (some 0) none)] "users" 3 =
      .ok (rangeList (max 0 (listMax [1, 2, 3, 4, 5]) + 1)
        (max 0 (listMax [1, 2, 3, 4, 5]) + 1 + 3),
        [("users", TableData.mk (some 5) none), ("orders", TableData.mk (some 0) none),
          ("products", TableData.mk (some 0) none)]) ∧
    ((0 : Int) ≤ listMax [1, 2, 3, 4, 5] →
      get_next_id_range
        [("users", TableData.mk (some 5) none), ("orders", TableData.mk (some 0) none),
          ("products", TableData.mk (some 0) none)] "users" 3 =
        .ok (rangeList (listMax [1, 2, 3, 4, 5] + 1) (listMax [1, 2, 3, 4, 5] + 1 + 3),
          [("users", TableData.mk (some 5) none), ("orders", TableData.mk (some 0) none),
            ("products", TableData.mk (some 0) none)])) :=
  C3_amended_next_range_start defaultMetadata "users" [1, 2, 3, 4, 5] 0 5 3
    (rangeList 1 6) _ rfl (by decide) rfl rfl

/-- C4: `add_generated_ids` is a no-op on the empty collection, sets
`last_id = max(last_id, max(ids))` on a non-empty one, never decreases
`last_id`, and is idempotent: committing the same ids again, or any
non-empty subset of them, leaves `last_id` at the same value. -/
theorem C4_commit_max_idempotent (m : Metadata) (t : String) (ids : List Int)
    (cur : Int) (h : getLastId m t = .ok cur) (hne : ids ≠ []) :
    add_generated_ids m t [] = .ok m ∧
    ∃ m2, add_generated_ids m t ids = .ok m2 ∧
      getLastId m2 t = .ok (max cur (listMax ids)) ∧
      cur ≤ max cur (listMax ids) ∧
      (∃ m3, add_generated_ids m2 t ids = .ok m3 ∧
        getLastId m3 t = .ok (max cur (listMax ids))) ∧
      (∀ ids2 : List Int, ids2 ≠ [] → (∀ x ∈ ids2, x ∈ ids) →
        ∃ m4, add_generated_ids m2 t ids2 = .ok m4 ∧
          getLastId m4 t = .ok (max cur (listMax ids))) := by
  obtain ⟨td, hl, hid⟩ := (getLastId_eq_ok m t cur).mp h
  have htd2 : lookupTable
      (setTable m t (fun td0 => { td0 with last_id := some (max cur (listMax ids)) })) t =
      some { td with last_id := some (max cur (listMax ids)) } := by
    rw [lookupTable_setTable_self, hl]
    rfl
  have hg2 := getLastId_setTable_lastId m t (max cur (listMax ids)) td hl
  refine ⟨add_generated_ids_nil m t, _, add_generated_ids_ok m t ids cur h hne,
    hg2, le_max_left _ _, ?_, ?_⟩
  · refine ⟨_, add_generated_ids_ok _ t ids (max cur (listMax ids)) hg2 hne, ?_⟩
    rw [getLastId_setTable_lastId _ t _ _ htd2]
    congr 1
    omega
  · intro ids2 hne2 hsub
    have hle : listMax ids2 ≤ listMax ids := listMax_subset_le ids2 ids hne2 hsub
    refine ⟨_, add_generated_ids_ok _ t ids2 (max cur (listMax ids)) hg2 hne2, ?_⟩
    rw [getLastId_setTable_lastId _ t _ _ htd2]
    congr 1
    omega

/-- Witness for C4 on a fresh allocator committing `[1,2,3,4,5]`. -/
theorem C4_commit_max_idempotent_witness :
    add_generated_ids defaultMetadata "users" [] = .ok defaultMetadata ∧
    ∃ m2, add_generated_ids defaultMetadata "users" [1, 2, 3, 4, 5] = .ok m2 ∧
      getLastId m2 "users" = .ok (max 0 (listMax [1, 2, 3, 4, 5])) ∧
      (0 : Int) ≤ max 0 (listMax [1, 2, 3, 4, 5]) ∧
      (∃ m3, add_generated_ids m2 "users" [1, 2, 3, 4, 5] = .ok m3 ∧
        getLastId m3 "users" = .ok (max 0 (listMax [1, 2, 3, 4, 5]))) ∧
      (∀ ids2 : List Int, ids2 ≠ [] → (∀ x ∈ ids2, x ∈ [(1 : Int), 2, 3, 4, 5]) →
        ∃ m4, add_generated_ids m2 "users" ids2 = .ok m4 ∧
          getLastId m4 "users" = .ok (max 0 (listMax [1, 2, 3, 4, 5]))) :=
  C4_commit_max_idempotent defaultMetadata "users" [1, 2, 3, 4, 5] 0 rfl (by decide)

/-- C5: persist followed by load reproduces the `last_id` map for every
in-memory allocator state (these never carry an `existing_ids` key);
loading a legacy entry with a non-empty `existing_ids` list yields
`last_id = max(existing_ids)`; the spec's concrete legacy document loads
to `last_id = 3`, and after persisting no `existing_ids` key remains. -/
theorem C5_persist_load_roundtrip (m : Metadata)
    (hclean : ∀ p ∈ m, (p.snd).existing_ids = none) :
    load_metadata (save_metadata m) = m ∧
    (∀ (lid : Option Int) (ids : List Int), ids ≠ [] →
      migrateTable ⟨lid, some ids⟩ = ⟨some (listMax ids), none⟩) ∧
    load_metadata [("users", ⟨some 3, some [1, 2, 3]⟩)] = [("users", ⟨some 3, none⟩)] ∧
    (∀ p ∈ save_metadata (load_metadata [("users", ⟨some 3, some [1, 2, 3]⟩)]),
      (p.snd).existing_ids = none) := by
  refine ⟨load_metadata_clean m hclean, ?_, rfl, ?_⟩
  · intro lid ids hne
    unfold migrateTable
    simp only [isEmpty_false_of_ne_nil hne, Bool.false_eq_true, if_false]
  · intro p hp
    have hred : save_metadata (load_metadata [("users", ⟨some 3, some [1, 2, 3]⟩)]) =
        [("users", TableData.mk (some 3) none)] := rfl
    rw [hred] at hp
    have hp2 : p = ("users", TableData.mk (some 3) none) := by
      simpa using hp
    rw [hp2]

/-- Witness for C5 at the default (fresh) allocator state. -/
theorem C5_persist_load_roundtrip_witness :
    load_metadata (save_metadata defaultMetadata) = defaultMetadata ∧
    (∀ (lid : Option Int) (ids : List Int), ids ≠ [] →
      migrateTable ⟨lid, some ids⟩ = ⟨some (listMax ids), none⟩) ∧
    load_metadata [("users", ⟨some 3, some [1, 2, 3]⟩)] = [("users", ⟨some 3, none⟩)] ∧
    (∀ p ∈ save_metadata (load_metadata [("users", ⟨some 3, some [1, 2, 3]⟩)]),
      (p.snd).existing_ids = none) :=
  C5_persist_load_roundtrip defaultMetadata (by decide)

/-- C6: whenever the estimated chunk row count is at least 1, the
splitter succeeds and the planned chunks concatenate in ordinal order to
the original dataset exactly, no chunk is empty, and the chunk count is
`ceil(N / chunk_row_count)` (in natural numbers, `(N + c - 1) / c`). -/
theorem C6_chunk_partition (df : List Int) (sampleBytes size_limit_mb : Nat) (c : Int)
    (hc : c = chunk_size (sample_size df.length)
      (((sampleBytes : Nat) : ℚ) / (1024 * 1024)) size_limit_mb)
    (h1 : 1 ≤ c) :
    ∃ cs, split_dataframe_by_size df sampleBytes size_limit_mb = .ok cs ∧
      cs.flatten = df ∧
      (∀ ch ∈ cs, ch ≠ []) ∧
      cs.length = (df.length + c.toNat - 1) / c.toNat := by
  obtain ⟨k, hk⟩ : ∃ k, c.toNat = k + 1 := ⟨c.toNat - 1, by omega⟩
  refine ⟨chunksOf c.toNat df, ?_, ?_, ?_, ?_⟩
  · show split_dataframe df (chunk_size (sample_size df.length)
      (((sampleBytes : Nat) : ℚ) / (1024 * 1024)) size_limit_mb) = _
    rw [← hc]
    unfold split_dataframe
    rw [if_neg (by omega : ¬ c = 0), if_neg (by omega : ¬ c < 0)]
  · rw [hk]
    exact chunksOf_flatten k df
  · rw [hk]
    exact chunksOf_ne_nil k df
  · rw [hk, chunksOf_length]
    congr 1

/-- Witness for C6: a 5-row dataframe whose sample measures exactly 1 MiB
under a 1 MB budget gives chunk row count 5 and a single 5-row chunk. -/
theorem C6_chunk_partition_witness :
    ∃ cs, split_dataframe_by_size [(1 : Int), 2, 3, 4, 5] 1048576 1 = .ok cs ∧
      cs.flatten = [(1 : Int), 2, 3, 4, 5] ∧
      (∀ ch ∈ cs, ch ≠ []) ∧
      cs.length = ([(1 : Int), 2, 3, 4, 5].length + (5 : Int).toNat - 1) / (5 : Int).toNat :=
  C6_chunk_partition [(1 : Int), 2, 3, 4, 5] 1048576 1 5
    (by
      have hpos : (0 : ℚ) < ((1048576 : Nat) : ℚ) / (1024 * 1024) := by norm_num
      have hs : sample_size (List.length [(1 : Int), 2, 3, 4, 5]) = 5 := rfl
      unfold chunk_size rows_per_mb
      rw [hs, if_pos hpos]
      norm_num)
    (by omega)

/-- C7: `get_next_id_range` is a pure read returning exactly the
half-open interval `[last_id + 1, last_id + count + 1)` of length
`count`, leaving the metadata unchanged. -/
theorem C7_allocate_range_pure (m : Metadata) (t : String) (cur count : Int)
    (h : getLastId m t = .ok cur) (_hc : 0 ≤ count) :
    ∃ r, get_next_id_range m t count = .ok (r, m) ∧
      r.length = count.toNat ∧
      (∀ x : Int, x ∈ r ↔ cur + 1 ≤ x ∧ x < cur + 1 + count) := by
  refine ⟨rangeList (cur + 1) (cur + 1 + count),
    get_next_id_range_ok m t cur count h, ?_, ?_⟩
  · rw [rangeList_length]
    omega
  · intro x
    rw [mem_rangeList]

/-- Witness for C7 at the spec's scenario: fresh allocator, allocate 5
for "users" — the range is `[1..5]`. -/
theorem C7_allocate_range_pure_witness :
    ∃ r, get_next_id_range defaultMetadata "users" 5 = .ok (r, defaultMetadata) ∧
      r.length = (5 : Int).toNat ∧
      (∀ x : Int, x ∈ r ↔ 0 + 1 ≤ x ∧ x < 0 + 1 + 5) :=
  C7_allocate_range_pure defaultMetadata "users" 0 5 rfl (by omega)

/-- C8: `get_existing_id_count` returns the current `last_id`;
`get_random_existing_id` raises the no-existing-ids `ValueError` (the
spec's `NoExistingIdsError`) exactly when that count is 0, and otherwise
returns a value in `[1, count]`; stated for the non-negative `last_id`
values of the spec's data model. -/
theorem C8_sample_bounds (m : Metadata) (t : String) (cur : Int) (seed : Nat)
    (h : getLastId m t = .ok cur) (hnn : 0 ≤ cur) :
    get_existing_id_count m t = .ok (cur, m) ∧
    (cur = 0 → get_random_existing_id m t seed =
      .error (.valueError ("No existing IDs for table " ++ t))) ∧
    (cur ≠ 0 → ∃ x, get_random_existing_id m t seed = .ok (x, m) ∧ 1 ≤ x ∧ x ≤ cur) := by
  refine ⟨get_existing_id_count_ok m t cur h, ?_, ?_⟩
  · intro h0
    subst h0
    exact get_random_existing_id_zero m t seed h
  · intro h0
    have h1 : 1 ≤ cur := by omega
    have hs : seed % (cur - 1 + 1).toNat < (cur - 1 + 1).toNat :=
      Nat.mod_lt _ (by omega)
    exact ⟨1 + ((seed % (cur - 1 + 1).toNat : Nat) : Int),
      get_random_existing_id_pos m t cur seed h h1, by omega, by omega⟩

/-- Witness for C8 at a state with `last_id = 5` and seed 17. -/
theorem C8_sample_bounds_witness :
    get_existing_id_count [("users", ⟨some 5, none⟩)] "users" =
      .ok (5, [("users", ⟨some 5, none⟩)]) ∧
    ((5 : Int) = 0 → get_random_existing_id [("users", ⟨some 5, none⟩)] "users" 17 =
      .error (.valueError ("No existing IDs for table " ++ "users"))) ∧
    ((5 : Int) ≠ 0 → ∃ x, get_random_existing_id [("users", ⟨some 5, none⟩)] "users" 17 =
      .ok (x, [("users", ⟨some 5, none⟩)]) ∧ 1 ≤ x ∧ x ≤ 5) :=
  C8_sample_bounds [("users", ⟨some 5, none⟩)] "users" 5 17 rfl (by omega)

/-- C9 counterexample: `add_generated_ids` called with an empty id
collection on an unregistered table returns normally (the emptiness
guard precedes any dict access), refuting the claim that every allocator
operation raises the unknown-table error. -/
theorem C9_counterexample_empty_commit :
    lookupTable defaultMetadata "ghost" = none ∧
    add_generated_ids defaultMetadata "ghost" [] = .ok defaultMetadata :=
  ⟨rfl, rfl⟩

/-- C9 (amended): on a table name outside the registered set, every
allocator operation raises `KeyError` (the spec's `UnknownTableError`)
— except `add_generated_ids` with an empty id collection, which is a
silent no-op. -/
theorem C9_amended_unknown_table (m : Metadata) (t : String)
    (h : lookupTable m t = none) :
    (∀ count : Int, get_next_id_range m t count = .error (.keyError t)) ∧
    get_existing_ids m t = .error (.keyError t) ∧
    (∀ seed : Nat, get_random_existing_id m t seed = .error (.keyError t)) ∧
    get_existing_id_count m t = .error (.keyError t) ∧
    (∀ ids : List Int, ids ≠ [] → add_generated_ids m t ids = .error (.keyError t)) ∧
    add_generated_ids m t [] = .ok m := by
  have he := getLastId_of_lookup_none m t h
  exact ⟨fun count => get_next_id_range_err m t count _ he,
    get_existing_ids_err m t _ he,
    fun seed => get_random_existing_id_err m t seed _ he,
    get_existing_id_count_err m t _ he,
    fun ids hne => add_generated_ids_err m t ids _ he hne,
    add_generated_ids_nil m t⟩

/-- Witness for C9 (amended) at the default state and the unregistered
name "ghost". -/
theorem C9_amended_unknown_table_witness :
    (∀ count : Int, get_next_id_range defaultMetadata "ghost" count =
      .error (.keyError "ghost")) ∧
    get_existing_ids defaultMetadata "ghost" = .error (.keyError "ghost") ∧
    (∀ seed : Nat, get_random_existing_id defaultMetadata "ghost" seed =
      .error (.keyError "ghost")) ∧
    get_existing_id_count defaultMetadata "ghost" = .error (.keyError "ghost") ∧
    (∀ ids : List Int, ids ≠ [] →
      add_generated_ids defaultMetadata "ghost" ids = .error (.keyError "ghost")) ∧
    add_generated_ids defaultMetadata "ghost" [] = .ok defaultMetadata :=
  C9_amended_unknown_table defaultMetadata "ghost" rfl

/-- C10 counterexample: a legacy entry holding only an empty
`existing_ids` list loads to an entry with no `last_id` key, yet
`update_last_id` on that table still succeeds (the assignment creates
the key), refuting the claim that every subsequent operation on the
table fails with a key-lookup error. -/
theorem C10_counterexample_update_succeeds :
    load_metadata [("users", TableData.mk none (some []))] =
      [("users", TableData.mk none none)] ∧
    update_last_id [("users", TableData.mk none none)] "users" 7 =
      .ok [("users", TableData.mk (some 7) none)] :=
  ⟨rfl, rfl⟩

/-- C10 (amended): on load, a legacy entry with an empty `existing_ids`
list has the list deleted and `last_id` left exactly as stored; when no
`last_id` was stored, every operation that reads `last_id` subsequently
fails with `KeyError("last_id")`, while `update_last_id` and
`add_generated_ids` with an empty collection succeed. -/
theorem C10_amended_missing_last_id (lid : Option Int) (m : Metadata) (t : String)
    (td : TableData) (h : lookupTable m t = some td) (h2 : td.last_id = none) :
    migrateTable ⟨lid, some []⟩ = ⟨lid, none⟩ ∧
    (∀ count : Int, get_next_id_range m t count = .error (.keyError "last_id")) ∧
    get_existing_ids m t = .error (.keyError "last_id") ∧
    (∀ seed : Nat, get_random_existing_id m t seed = .error (.keyError "last_id")) ∧
    get_existing_id_count m t = .error (.keyError "last_id") ∧
    (∀ ids : List Int, ids ≠ [] → add_generated_ids m t ids = .error (.keyError "last_id")) ∧
    add_generated_ids m t [] = .ok m ∧
    (∀ v : Int, ∃ m2, update_last_id m t v = .ok m2) := by
  have he := getLastId_of_lastId_none m t td h h2
  refine ⟨rfl, fun count => get_next_id_range_err m t count _ he,
    get_existing_ids_err m t _ he,
    fun seed => get_random_existing_id_err m t seed _ he,
    get_existing_id_count_err m t _ he,
    fun ids hne => add_generated_ids_err m t ids _ he hne,
    add_generated_ids_nil m t,
    fun v => ⟨_, update_last_id_ok m t v td h⟩⟩

/-- Witness for C10 (amended) at the migrated entry of the
counterexample document. -/
theorem C10_amended_missing_last_id_witness :
    migrateTable ⟨none, some []⟩ = ⟨none, none⟩ ∧
    (∀ count : Int, get_next_id_range [("users", TableData.mk none none)] "users" count =
      .error (.keyError "last_id")) ∧
    get_existing_ids [("users", TableData.mk none none)] "users" =
      .error (.keyError "last_id") ∧
    (∀ seed : Nat, get_random_existing_id [("users", TableData.mk none none)] "users" seed =
      .error (.keyError "last_id")) ∧
    get_existing_id_count [("users", TableData.mk none none)] "users" =
      .error (.keyError "last_id") ∧
    (∀ ids : List Int, ids ≠ [] →
      add_generated_ids [("users", TableData.mk none none)] "users" ids =
        .error (.keyError "last_id")) ∧
    add_generated_ids [("users", TableData.mk none none)] "users" [] =
      .ok [("users", TableData.mk none none)] ∧
    (∀ v : Int, ∃ m2, update_last_id [("users", TableData.mk none none)] "users" v = .ok m2) :=
  C10_amended_missing_last_id none [("users", TableData.mk none none)] "users"
    (TableData.mk none none) rfl rfl
